import Mathlib

/-!
Shallow embedding of the status-display daemon:
`src/init_display/init_display.py` and
`src/init_display/lib/waveshare_OLED/OLED_1in3.py`.

Pure functions of the Python source are translated to Lean functions.
Python integers are unbounded, so they are modelled by `ℤ`/`ℕ`; the only
floating-point values that matter to the claims are exactly representable
(see the comments on `read_capacity` and `read_voltage`), so they are
modelled by `ℚ`.  The I2C bus is modelled as a function from register to
`Option ℕ`, where `none` stands for a raised `IOError`.
-/

/- Constants from init_display.py. -/

def BAT_THRESHOLD_HIGH : ℤ := 70
def BAT_THRESHOLD_MEDIUM : ℤ := 50
def BAT_THRESHOLD_LOW : ℤ := 30
def BAT_THRESHOLD_CRIT : ℤ := 15

/- OLED panel dimensions (OLED_1in3.py). -/

def OLED_WIDTH : ℕ := 128
def OLED_HEIGHT : ℕ := 64

/-- Byte swap of a 16-bit word:
`struct.unpack("<H", struct.pack(">H", read))[0]` in `read_word`.
`struct.pack(">H", w)` demands `w < 2 ^ 16`; SMBus word reads always
satisfy this, and theorems carry the bound where it matters. -/
def swap16 (w : ℕ) : ℕ := (w % 256) * 256 + w / 256

/-- `read_word(bus, register)` (init_display.py:67).  The bus argument
models `bus.read_word_data(ADDRESS, register)`: `some w` is a successful
read of raw word `w`, `none` is a raised `IOError`.  The `except` branch
logs and returns 0, so the function itself never fails. -/
def read_word (bus : ℕ → Option ℕ) (register : ℕ) : ℕ :=
  match bus register with
  | some w => swap16 w
  | none => 0

/-- `read_voltage(bus)` (init_display.py:77): `read_word(bus, 2) * 1.25 / 1000 / 16`.
Modelled exactly over `ℚ` (1.25 = 5/4).  The Python float result can differ
from the exact rational by rounding of `/ 1000`, but it is exactly 0.0
whenever `read_word` returns 0, which is the only case the claims use. -/
def read_voltage (bus : ℕ → Option ℕ) : ℚ :=
  (read_word bus 2 : ℚ) * (5 / 4) / 1000 / 16

/-- Round `num / den` to the nearest integer, ties to even
(`den > 0` at every use site).  This is the rounding mode of Python's
built-in `round`. -/
def halfEvenRoundNat (num den : ℕ) : ℕ :=
  let q := num / den
  let r := num % den
  if 2 * r < den then q
  else if den < 2 * r then q + 1
  else if q % 2 = 0 then q else q + 1

/-- `read_capacity(bus)` (init_display.py:82): `round(read_word(bus, 4) / 256, 2)`.
The quotient `word / 256` is a dyadic rational with `word < 2^16`, hence
exactly representable in binary64, so Python's `round(x, 2)` computes the
exact decimal half-even rounding of `x` to hundredths (then stores the
nearest float to it).  We model that exact decimal value over `ℚ`:
`round(x, 2) = halfEvenRound(100 * x) / 100`. -/
def read_capacity (bus : ℕ → Option ℕ) : ℚ :=
  (halfEvenRoundNat (read_word bus 4 * 100) 256 : ℚ) / 100

/-- Python `int()` applied to a numeric value: truncation toward zero. -/
def pyInt (q : ℚ) : ℤ := if 0 ≤ q then ⌊q⌋ else -⌊-q⌋

/-- The capacity value as consumed by the main loop
(init_display.py:241): `capacity = int(read_capacity(bus))`. -/
def loop_capacity (bus : ℕ → Option ℕ) : ℤ := pyInt (read_capacity bus)

/-- `get_battery_capacity_label(value)` (init_display.py:192): the
`match`/`case` guard chain over the four thresholds. -/
def get_battery_capacity_label (value : ℤ) : String :=
  if BAT_THRESHOLD_HIGH ≤ value then "H"
  else if value < BAT_THRESHOLD_HIGH ∧ BAT_THRESHOLD_MEDIUM ≤ value then "M"
  else if value < BAT_THRESHOLD_MEDIUM ∧ BAT_THRESHOLD_LOW ≤ value then "L"
  else if value < BAT_THRESHOLD_LOW ∧ BAT_THRESHOLD_CRIT ≤ value then "C"
  else "!!"

/-- `get_battery_info(ac_power_state, capacity)` (init_display.py:87):
`f'{"+" if ac_power_state == 1 else "-"}{capacity}%{get_battery_capacity_label(capacity)}'`.
The main loop passes an `int` capacity, so `{capacity}` is the decimal
integer representation. -/
def get_battery_info (ac_power_state capacity : ℤ) : String :=
  (if ac_power_state = 1 then "+" else "-") ++ toString capacity ++ "%"
    ++ get_battery_capacity_label capacity

/-- `check_shutdown_status(ac_status, battery_capacity)` (init_display.py:205):
`ac_status != 1 and BAT_THRESHOLD_LOW > battery_capacity >= BAT_THRESHOLD_CRIT`. -/
def check_shutdown_status (ac_status battery_capacity : ℤ) : Bool :=
  decide (ac_status ≠ 1) &&
    (decide (battery_capacity < BAT_THRESHOLD_LOW) &&
      decide (BAT_THRESHOLD_CRIT ≤ battery_capacity))

/- Buffer packer (OLED_1in3.py, `get_buffer`). -/

/-- A monochrome raster as produced by `image.convert('1')` in
`get_buffer`: `w`/`h` are `image_monocolor.size`, `px x y` is
`pixels[x, y]` (0 = ink under the panel polarity, 255 = background). -/
structure Image where
  w : ℕ
  h : ℕ
  px : ℕ → ℕ → ℕ

/-- Python `v &= ~(1 << b)` on a non-negative int: clear bit `b` of `v`. -/
def clearBit (v b : ℕ) : ℕ := if Nat.testBit v b then v - 2 ^ b else v

/-- Loop body of the normal branch of `get_buffer` (OLED_1in3.py:74):
`if pixels[x, y] == 0: buf[x + (y // 8) * self.width] &= ~(1 << (y % 8))`. -/
def setPixelNormal (width : ℕ) (image : Image) (y : ℕ) (buf : List ℕ) (x : ℕ) :
    List ℕ :=
  if image.px x y = 0 then
    buf.set (x + (y / 8) * width)
      (clearBit (buf.getD (x + (y / 8) * width) 0) (y % 8))
  else buf

/-- Inner `for x in range(imwidth)` of the normal branch. -/
def rowNormal (width : ℕ) (image : Image) (buf : List ℕ) (y : ℕ) : List ℕ :=
  (List.range image.w).foldl (setPixelNormal width image y) buf

/-- Loop body of the transposed branch of `get_buffer` (OLED_1in3.py:79):
`newx = y; newy = self.height - x - 1;
if pixels[x, y] == 0: buf[newx + (newy // 8) * self.width] &= ~(1 << (y % 8))`. -/
def setPixelTransposed (width height : ℕ) (image : Image) (y : ℕ)
    (buf : List ℕ) (x : ℕ) : List ℕ :=
  let newx := y
  let newy := height - x - 1
  if image.px x y = 0 then
    buf.set (newx + (newy / 8) * width)
      (clearBit (buf.getD (newx + (newy / 8) * width) 0) (y % 8))
  else buf

/-- Inner `for x in range(imwidth)` of the transposed branch. -/
def rowTransposed (width height : ℕ) (image : Image) (buf : List ℕ) (y : ℕ) :
    List ℕ :=
  (List.range image.w).foldl (setPixelTransposed width height image y) buf

/-- `get_buffer(self, image)` (OLED_1in3.py:65), with `width`/`height`
standing for `self.width`/`self.height` (128 and 64 for this panel):
allocate `[0xFF] * ((width // 8) * height)`, then run the matching
branch's nested loops, or return the untouched buffer when neither
dimension test matches. -/
def get_buffer (width height : ℕ) (image : Image) : List ℕ :=
  let buf := List.replicate ((width / 8) * height) 0xFF
  if image.w = width ∧ image.h = height then
    (List.range image.h).foldl (rowNormal width image) buf
  else if image.w = height ∧ image.h = width then
    (List.range image.h).foldl (rowTransposed width height image) buf
  else
    buf

/-- A raster whose only ink pixel is `(x0, y0)`. -/
def singleImg (w h x0 y0 : ℕ) : Image :=
  ⟨w, h, fun x y => if x = x0 ∧ y = y0 then 0 else 255⟩

/-- The bus whose register 4 read returns raw word `raw`; used to state
claims about the capacity value derived from one raw register word. -/
def busOf (raw : ℕ) : ℕ → Option ℕ := fun r => if r = 4 then some raw else none

/- Helper lemmas shared between claim theorems. -/

lemma shutdown_true_iff (s p : ℤ) :
    check_shutdown_status s p = true ↔ s ≠ 1 ∧ 15 ≤ p ∧ p < 30 := by
  simp only [check_shutdown_status, BAT_THRESHOLD_LOW, BAT_THRESHOLD_CRIT,
    Bool.and_eq_true, decide_eq_true_eq]
  tauto

lemma label_eq_H_iff (p : ℤ) : get_battery_capacity_label p = "H" ↔ 70 ≤ p := by
  unfold get_battery_capacity_label BAT_THRESHOLD_HIGH BAT_THRESHOLD_MEDIUM
    BAT_THRESHOLD_LOW BAT_THRESHOLD_CRIT
  split_ifs <;> simp_all

lemma label_eq_M_iff (p : ℤ) :
    get_battery_capacity_label p = "M" ↔ 50 ≤ p ∧ p < 70 := by
  unfold get_battery_capacity_label BAT_THRESHOLD_HIGH BAT_THRESHOLD_MEDIUM
    BAT_THRESHOLD_LOW BAT_THRESHOLD_CRIT
  split_ifs <;> simp_all

lemma label_eq_L_iff (p : ℤ) :
    get_battery_capacity_label p = "L" ↔ 30 ≤ p ∧ p < 50 := by
  unfold get_battery_capacity_label BAT_THRESHOLD_HIGH BAT_THRESHOLD_MEDIUM
    BAT_THRESHOLD_LOW BAT_THRESHOLD_CRIT
  split_ifs <;> simp_all
  omega

lemma label_eq_C_iff (p : ℤ) :
    get_battery_capacity_label p = "C" ↔ 15 ≤ p ∧ p < 30 := by
  unfold get_battery_capacity_label BAT_THRESHOLD_HIGH BAT_THRESHOLD_MEDIUM
    BAT_THRESHOLD_LOW BAT_THRESHOLD_CRIT
  split_ifs <;> simp_all <;> omega

lemma label_eq_unknown_iff (p : ℤ) :
    get_battery_capacity_label p = "!!" ↔ p < 15 := by
  unfold get_battery_capacity_label BAT_THRESHOLD_HIGH BAT_THRESHOLD_MEDIUM
    BAT_THRESHOLD_LOW BAT_THRESHOLD_CRIT
  split_ifs <;> simp_all <;> omega

/-- C1: for every power-state value `s` and integer capacity `p`,
`check_shutdown_status s p` is true iff `s` is BATTERY (pin value ≠ 1) and
`p` lies in the half-open band `[BAT_THRESHOLD_CRIT, BAT_THRESHOLD_LOW)` =
[15, 30); in particular it is true at (BATTERY, 20) and false at (AC, 5)
and (BATTERY, 30). -/
theorem check_shutdown_status_band :
    (∀ s p : ℤ, check_shutdown_status s p = true ↔
      s ≠ 1 ∧ BAT_THRESHOLD_CRIT ≤ p ∧ p < BAT_THRESHOLD_LOW) ∧
    check_shutdown_status 0 20 = true ∧
    check_shutdown_status 1 5 = false ∧
    check_shutdown_status 0 30 = false :=
  ⟨fun s p => shutdown_true_iff s p, by decide, by decide, by decide⟩

/-- C2 (counterexample): the claim `check_shutdown_status(BATTERY, 15) == false`
is false on the code — at capacity exactly 15 on battery the decision is true. -/
theorem check_shutdown_status_at_crit_not_false :
    ¬ (check_shutdown_status 0 15 = false) := by decide

/-- C2 (amended): at the lower boundary, the shutdown decision for battery
power at exactly the CRITICAL threshold is true:
`check_shutdown_status(BATTERY, 15) == true`. -/
theorem check_shutdown_status_at_crit :
    check_shutdown_status 0 BAT_THRESHOLD_CRIT = true := by decide

/-- C3: `get_battery_capacity_label` is total (every integer maps to one of
the five labels), the bands are non-overlapping (each label holds exactly on
its own half-open band, so each value maps to exactly one label), and the
boundary values 70↦"H", 69↦"M", 50↦"M", 49↦"L", 30↦"L", 29↦"C", 15↦"C",
14↦"!!" hold. -/
theorem get_battery_capacity_label_bands :
    (∀ p : ℤ,
      get_battery_capacity_label p = "H" ∨ get_battery_capacity_label p = "M" ∨
      get_battery_capacity_label p = "L" ∨ get_battery_capacity_label p = "C" ∨
      get_battery_capacity_label p = "!!") ∧
    (∀ p : ℤ,
      (get_battery_capacity_label p = "H" ↔ 70 ≤ p) ∧
      (get_battery_capacity_label p = "M" ↔ 50 ≤ p ∧ p < 70) ∧
      (get_battery_capacity_label p = "L" ↔ 30 ≤ p ∧ p < 50) ∧
      (get_battery_capacity_label p = "C" ↔ 15 ≤ p ∧ p < 30) ∧
      (get_battery_capacity_label p = "!!" ↔ p < 15)) ∧
    get_battery_capacity_label 70 = "H" ∧ get_battery_capacity_label 69 = "M" ∧
    get_battery_capacity_label 50 = "M" ∧ get_battery_capacity_label 49 = "L" ∧
    get_battery_capacity_label 30 = "L" ∧ get_battery_capacity_label 29 = "C" ∧
    get_battery_capacity_label 15 = "C" ∧ get_battery_capacity_label 14 = "!!" := by
  refine ⟨fun p => ?_,
    fun p => ⟨label_eq_H_iff p, label_eq_M_iff p, label_eq_L_iff p,
      label_eq_C_iff p, label_eq_unknown_iff p⟩,
    by decide, by decide, by decide, by decide, by decide, by decide,
    by decide, by decide⟩
  rcases le_or_lt 70 p with h | h
  · exact Or.inl ((label_eq_H_iff p).2 h)
  rcases le_or_lt 50 p with h2 | h2
  · exact Or.inr (Or.inl ((label_eq_M_iff p).2 ⟨h2, h⟩))
  rcases le_or_lt 30 p with h3 | h3
  · exact Or.inr (Or.inr (Or.inl ((label_eq_L_iff p).2 ⟨h3, h2⟩)))
  rcases le_or_lt 15 p with h4 | h4
  · exact Or.inr (Or.inr (Or.inr (Or.inl ((label_eq_C_iff p).2 ⟨h4, h3⟩))))
  · exact Or.inr (Or.inr (Or.inr (Or.inr ((label_eq_unknown_iff p).2 h4))))

/-- C9 (counterexample): the claimed iteration outcome for
(BATTERY, capacity 25) — battery string `"-25%L"` and no shutdown — is false:
25 lies in the CRITICAL band [15, 30), so the label is "C" and the shutdown
decision is true. -/
theorem battery25_claim_false :
    ¬ (get_battery_info 0 25 = "-25%L" ∧ check_shutdown_status 0 25 = false) := by
  decide

/-- C9 (amended): in an iteration with PowerState = BATTERY and capacity 25,
the composed battery status string is `"-25%C"` and the shutdown decision is
true, so a shutdown is triggered. -/
theorem battery25_status :
    get_battery_info 0 25 = "-25%C" ∧ check_shutdown_status 0 25 = true := by
  decide

/-- C10: for every capacity `p`, the shutdown decision on battery power
(pin value `s ≠ 1`) holds exactly when the capacity classifies as CRITICAL
(`get_battery_capacity_label p = "C"`), and on AC power (pin value 1) the
decision is false for every `p`. -/
theorem shutdown_iff_critical_label :
    ∀ s p : ℤ,
      (s ≠ 1 →
        (check_shutdown_status s p = true ↔ get_battery_capacity_label p = "C")) ∧
      check_shutdown_status 1 p = false := by
  intro s p
  refine ⟨fun hs => ?_, ?_⟩
  · rw [shutdown_true_iff, label_eq_C_iff]
    tauto
  · simp [check_shutdown_status]

/-- Witness for C10 at (BATTERY pin value 0, capacity 20). -/
theorem shutdown_iff_critical_label_witness :
    (check_shutdown_status 0 20 = true ↔ get_battery_capacity_label 20 = "C") ∧
    check_shutdown_status 1 20 = false :=
  ⟨(shutdown_iff_critical_label 0 20).1 (by decide),
   (shutdown_iff_critical_label 0 20).2⟩

/-- C7: when the underlying I2C register reads fail (modelled by the bus
returning `none`, i.e. a raised `IOError` absorbed inside `read_word`),
`read_capacity` returns 0 and `read_voltage` returns 0.0.  The functions
are total — the failure is substituted by `read_word`'s default 0 and never
propagated to the caller. -/
theorem read_fail_defaults :
    ∀ bus : ℕ → Option ℕ, bus 2 = none → bus 4 = none →
      read_voltage bus = 0 ∧ read_capacity bus = 0 := by
  intro bus h2 h4
  constructor
  · simp [read_voltage, read_word, h2]
  · simp [read_capacity, read_word, h4, halfEvenRoundNat]

/-- Witness for C7: the bus every read of which fails. -/
theorem read_fail_defaults_witness :
    read_voltage (fun _ => none) = 0 ∧ read_capacity (fun _ => none) = 0 :=
  read_fail_defaults (fun _ => none) rfl rfl

/- Helper lemmas for the capacity range (C8). -/

lemma pyInt_natCast_div (n : ℕ) : pyInt ((n : ℚ) / 100) = ((n / 100 : ℕ) : ℤ) := by
  have h0 : (0 : ℚ) ≤ (n : ℚ) / 100 := by positivity
  rw [pyInt, if_pos h0, ← Int.natCast_floor_eq_floor h0, Nat.floor_div_ofNat,
    Nat.floor_natCast]

lemma loop_capacity_eq (bus : ℕ → Option ℕ) :
    loop_capacity bus =
      ((halfEvenRoundNat (read_word bus 4 * 100) 256 / 100 : ℕ) : ℤ) := by
  rw [loop_capacity, read_capacity, pyInt_natCast_div]

lemma halfEvenRoundNat_le (num den : ℕ) :
    halfEvenRoundNat num den ≤ num / den + 1 := by
  simp only [halfEvenRoundNat]
  split_ifs <;> omega

/-- C8 (counterexample): the raw register word 0xFFFF = 65535 byte-swaps to
65535, and `int(round(65535 / 256, 2))` is 256 — the capacity consumed by
the loop is not in 0–100, so the code performs no clamping into that range. -/
theorem loop_capacity_not_clamped :
    loop_capacity (busOf 65535) = 256 ∧ ¬ (loop_capacity (busOf 65535) ≤ 100) := by
  rw [loop_capacity_eq]
  norm_num [read_word, busOf, swap16, halfEvenRoundNat]

/-- C8 (amended): for every raw 16-bit register word, the capacity value as
consumed by the loop (`int(read_capacity(bus))`) is an integer in the range
0 to 256 inclusive — dividing the byte-swapped word by 256 and rounding, but
never clamping to 100. -/
theorem loop_capacity_range :
    ∀ raw : ℕ, raw < 65536 →
      0 ≤ loop_capacity (busOf raw) ∧ loop_capacity (busOf raw) ≤ 256 := by
  intro raw h
  rw [loop_capacity_eq]
  have hr : read_word (busOf raw) 4 = swap16 raw := by simp [read_word, busOf]
  rw [hr]
  refine ⟨Int.natCast_nonneg _, ?_⟩
  have h2 : halfEvenRoundNat (swap16 raw * 100) 256 / 100 ≤ 256 := by
    have h1 := halfEvenRoundNat_le (swap16 raw * 100) 256
    have h3 : swap16 raw * 100 / 256 ≤ 25599 := by
      have hm : swap16 raw * 100 ≤ 6553500 := by unfold swap16; omega
      calc swap16 raw * 100 / 256 ≤ 6553500 / 256 := Nat.div_le_div_right hm
        _ = 25599 := by norm_num
    omega
  exact_mod_cast h2

/-- Witness for C8 (amended) at the raw word 0x1234 = 4660. -/
theorem loop_capacity_range_witness :
    0 ≤ loop_capacity (busOf 4660) ∧ loop_capacity (busOf 4660) ≤ 256 :=
  loop_capacity_range 4660 (by norm_num)

/- Loop lemmas for the packer proofs. -/

lemma singleImg_w (w h x0 y0 : ℕ) : (singleImg w h x0 y0).w = w := rfl

lemma singleImg_h (w h x0 y0 : ℕ) : (singleImg w h x0 y0).h = h := rfl

lemma singleImg_px_ne (w h x0 y0 x y : ℕ) (hne : ¬(x = x0 ∧ y = y0)) :
    (singleImg w h x0 y0).px x y = 255 := by
  simp only [singleImg]
  rw [if_neg hne]

lemma foldl_range_id {β : Type} (f : β → ℕ → β) (n : ℕ) (b : β)
    (hid : ∀ c a, a < n → f c a = c) : (List.range n).foldl f b = b := by
  induction n with
  | zero => rfl
  | succ m ih =>
    rw [List.range_succ, List.foldl_append]
    simp only [List.foldl_cons, List.foldl_nil]
    rw [ih (fun c a ha => hid c a (by omega))]
    exact hid b m (by omega)

lemma foldl_range_single {β : Type} (f : β → ℕ → β) (q n : ℕ) (b : β)
    (hq : q < n) (hid : ∀ c a, a < n → a ≠ q → f c a = c) :
    (List.range n).foldl f b = f b q := by
  induction n with
  | zero => omega
  | succ m ih =>
    rw [List.range_succ, List.foldl_append]
    simp only [List.foldl_cons, List.foldl_nil]
    by_cases hqm : q = m
    · subst hqm
      rw [foldl_range_id f q b (fun c a ha => hid c a (by omega) (by omega))]
    · rw [ih (by omega) (fun c a ha hne => hid c a (by omega) hne)]
      exact hid (f b q) m (by omega) (fun hmq => hqm hmq.symm)

lemma foldl_preserves_length {α β : Type} (f : List β → α → List β) (l : List α)
    (b : List β) (h : ∀ c a, (f c a).length = c.length) :
    (l.foldl f b).length = b.length := by
  induction l generalizing b with
  | nil => rfl
  | cons x t ih => rw [List.foldl_cons, ih (f b x), h]

lemma setPixelNormal_length (width : ℕ) (image : Image) (y : ℕ) (buf : List ℕ)
    (x : ℕ) : (setPixelNormal width image y buf x).length = buf.length := by
  unfold setPixelNormal
  split <;> simp

lemma setPixelTransposed_length (width height : ℕ) (image : Image) (y : ℕ)
    (buf : List ℕ) (x : ℕ) :
    (setPixelTransposed width height image y buf x).length = buf.length := by
  simp only [setPixelTransposed]
  split <;> simp

lemma rowNormal_length (width : ℕ) (image : Image) (buf : List ℕ) (y : ℕ) :
    (rowNormal width image buf y).length = buf.length :=
  foldl_preserves_length _ _ _ (fun c a => setPixelNormal_length width image y c a)

lemma rowTransposed_length (width height : ℕ) (image : Image) (buf : List ℕ)
    (y : ℕ) : (rowTransposed width height image buf y).length = buf.length :=
  foldl_preserves_length _ _ _
    (fun c a => setPixelTransposed_length width height image y c a)

/-- C6: for every raster, `get_buffer` returns exactly `(width // 8) * height`
bytes, and when the raster matches neither the normal (`width × height`) nor
the transposed (`height × width`) dimensions it returns the initial buffer
untouched — every byte still 0xFF — via the explicit fall-through branch
(the function is total, so no crash is possible). -/
theorem get_buffer_length_and_fallback :
    ∀ (width height : ℕ) (image : Image),
      (get_buffer width height image).length = (width / 8) * height ∧
      (¬(image.w = width ∧ image.h = height) →
       ¬(image.w = height ∧ image.h = width) →
       get_buffer width height image =
         List.replicate ((width / 8) * height) 0xFF) := by
  intro width height image
  unfold get_buffer
  split_ifs with h1 h2
  · refine ⟨?_, fun hn _ => absurd h1 hn⟩
    rw [foldl_preserves_length _ _ _ (fun c a => rowNormal_length width image c a),
      List.length_replicate]
  · refine ⟨?_, fun _ hn => absurd h2 hn⟩
    rw [foldl_preserves_length _ _ _
        (fun c a => rowTransposed_length width height image c a),
      List.length_replicate]
  · exact ⟨List.length_replicate _ _, fun _ _ => rfl⟩

/-- Witness for C6: a 10×10 raster matches neither orientation of the
128×64 panel, so the packer returns the all-0xFF buffer of 1024 bytes. -/
theorem get_buffer_length_and_fallback_witness :
    (get_buffer 128 64 ⟨10, 10, fun _ _ => 0⟩).length = (128 / 8) * 64 ∧
    get_buffer 128 64 ⟨10, 10, fun _ _ => 0⟩ =
      List.replicate ((128 / 8) * 64) 0xFF :=
  ⟨(get_buffer_length_and_fallback 128 64 ⟨10, 10, fun _ _ => 0⟩).1,
   (get_buffer_length_and_fallback 128 64 ⟨10, 10, fun _ _ => 0⟩).2
     (by simp) (by simp)⟩

/- Byte- and buffer-access lemmas for the single-pixel packer claims. -/

lemma getD_replicate {n i : ℕ} (h : i < n) (a d : ℕ) :
    (List.replicate n a).getD i d = a := by
  rw [List.getD_eq_getElem?_getD, List.getElem?_replicate]
  simp [h]

lemma getD_set_self (l : List ℕ) (i v d : ℕ) (h : i < l.length) :
    (l.set i v).getD i d = v := by
  rw [List.getD_eq_getElem?_getD, List.getElem?_set_eq_of_lt _ (by simpa using h)]
  rfl

lemma getD_set_ne (l : List ℕ) (i j v d : ℕ) (hne : j ≠ i) :
    (l.set i v).getD j d = l.getD j d := by
  rw [List.getD_eq_getElem?_getD, List.getElem?_set_ne (by omega),
    ← List.getD_eq_getElem?_getD]

lemma testBit_255_of_lt {b : ℕ} (hb : b < 8) : Nat.testBit 255 b = true := by
  interval_cases b <;> decide

lemma clearBit_255 {b : ℕ} (hb : b < 8) : clearBit 255 b = 255 - 2 ^ b := by
  rw [clearBit, if_pos (testBit_255_of_lt hb)]

lemma testBit_255_sub {b0 b : ℕ} (hb0 : b0 < 8) (hb : b < 8) :
    (Nat.testBit (255 - 2 ^ b0) b = false) ↔ b = b0 := by
  interval_cases b0 <;> interval_cases b <;> decide

/- Normal branch on a single-pixel raster (C4). -/

lemma rowNormal_single_id (x0 y0 y : ℕ) (buf : List ℕ) (hy : y ≠ y0) :
    rowNormal 128 (singleImg 128 64 x0 y0) buf y = buf := by
  simp only [rowNormal, singleImg_w]
  apply foldl_range_id
  intro c a ha
  unfold setPixelNormal
  rw [singleImg_px_ne 128 64 x0 y0 a y (by tauto)]
  simp

lemma rowNormal_single_hot (x0 y0 : ℕ) (hx : x0 < 128) (buf : List ℕ) :
    rowNormal 128 (singleImg 128 64 x0 y0) buf y0 =
      buf.set (x0 + (y0 / 8) * 128)
        (clearBit (buf.getD (x0 + (y0 / 8) * 128) 0) (y0 % 8)) := by
  simp only [rowNormal, singleImg_w]
  rw [foldl_range_single (setPixelNormal 128 (singleImg 128 64 x0 y0) y0) x0 128 buf
    hx (fun c a ha hne => by
      unfold setPixelNormal
      rw [singleImg_px_ne 128 64 x0 y0 a y0 (by tauto)]
      simp)]
  unfold setPixelNormal
  rw [show (singleImg 128 64 x0 y0).px x0 y0 = 0 from by simp [singleImg]]
  simp

lemma get_buffer_normal_eq (image : Image) (hw : image.w = 128)
    (hh : image.h = 64) :
    get_buffer 128 64 image =
      (List.range 64).foldl (rowNormal 128 image) (List.replicate 1024 255) := by
  simp only [get_buffer]
  rw [if_pos ⟨hw, hh⟩, hh]

lemma get_buffer_single_normal (x0 y0 : ℕ) (hx : x0 < 128) (hy : y0 < 64) :
    get_buffer 128 64 (singleImg 128 64 x0 y0) =
      (List.replicate 1024 255).set (x0 + (y0 / 8) * 128) (255 - 2 ^ (y0 % 8)) := by
  rw [get_buffer_normal_eq _ (singleImg_w _ _ _ _) (singleImg_h _ _ _ _)]
  rw [foldl_range_single (rowNormal 128 (singleImg 128 64 x0 y0)) y0 64 _ hy
    (fun c a ha hne => rowNormal_single_id x0 y0 a c hne)]
  rw [rowNormal_single_hot x0 y0 hx]
  rw [getD_replicate (show x0 + (y0 / 8) * 128 < 1024 by omega)]
  rw [clearBit_255 (Nat.mod_lt y0 (by norm_num))]

/-- C4: for a raster matching the panel dimensions (128×64) whose only ink
pixel is `(x0, y0)`, the packed buffer has exactly one cleared bit: bit
`y0 % 8` of byte `x0 + (y0 / 8) * 128`; every other bit of every byte is
still 1. -/
theorem get_buffer_single_pixel :
    ∀ x0 y0 : ℕ, x0 < 128 → y0 < 64 →
      ∀ i b : ℕ, i < 1024 → b < 8 →
        (Nat.testBit ((get_buffer 128 64 (singleImg 128 64 x0 y0)).getD i 0) b = false
          ↔ (i = x0 + (y0 / 8) * 128 ∧ b = y0 % 8)) := by
  intro x0 y0 hx hy i b hi hb
  have hidx : x0 + (y0 / 8) * 128 < 1024 := by omega
  rw [get_buffer_single_normal x0 y0 hx hy]
  by_cases hieq : i = x0 + (y0 / 8) * 128
  · subst hieq
    rw [getD_set_self _ _ _ _ (by rw [List.length_replicate]; exact hidx)]
    rw [testBit_255_sub (Nat.mod_lt y0 (by norm_num)) hb]
    simp
  · rw [getD_set_ne _ _ _ _ _ hieq, getD_replicate hi, testBit_255_of_lt hb]
    simp [hieq]

/-- Witness for C4 at pixel (5, 13): byte 5 + (13 / 8) * 128 = 133, bit
13 % 8 = 5. -/
theorem get_buffer_single_pixel_witness :
    Nat.testBit ((get_buffer 128 64 (singleImg 128 64 5 13)).getD 133 0) 5 = false ↔
      (133 = 5 + (13 / 8) * 128 ∧ 5 = 13 % 8) :=
  get_buffer_single_pixel 5 13 (by norm_num) (by norm_num) 133 5
    (by norm_num) (by norm_num)

/- Transposed branch on a single-pixel raster (C5). -/

lemma rowTransposed_single_id (x0 y0 y : ℕ) (buf : List ℕ) (hy : y ≠ y0) :
    rowTransposed 128 64 (singleImg 64 128 x0 y0) buf y = buf := by
  simp only [rowTransposed, singleImg_w]
  apply foldl_range_id
  intro c a ha
  simp only [setPixelTransposed]
  rw [singleImg_px_ne 64 128 x0 y0 a y (by tauto)]
  simp

lemma rowTransposed_single_hot (x0 y0 : ℕ) (hx : x0 < 64) (buf : List ℕ) :
    rowTransposed 128 64 (singleImg 64 128 x0 y0) buf y0 =
      buf.set (y0 + ((64 - x0 - 1) / 8) * 128)
        (clearBit (buf.getD (y0 + ((64 - x0 - 1) / 8) * 128) 0) (y0 % 8)) := by
  simp only [rowTransposed, singleImg_w]
  rw [foldl_range_single (setPixelTransposed 128 64 (singleImg 64 128 x0 y0) y0) x0 64
    buf hx (fun c a ha hne => by
      simp only [setPixelTransposed]
      rw [singleImg_px_ne 64 128 x0 y0 a y0 (by tauto)]
      simp)]
  simp only [setPixelTransposed]
  rw [show (singleImg 64 128 x0 y0).px x0 y0 = 0 from by simp [singleImg]]
  simp

lemma get_buffer_transposed_eq (image : Image) (hw : image.w = 64)
    (hh : image.h = 128) :
    get_buffer 128 64 image =
      (List.range 128).foldl (rowTransposed 128 64 image)
        (List.replicate 1024 255) := by
  simp only [get_buffer]
  rw [if_neg (by intro hc; rw [hw] at hc; exact absurd hc.1 (by norm_num)),
    if_pos ⟨hw, hh⟩, hh]

lemma get_buffer_single_transposed (x0 y0 : ℕ) (hx : x0 < 64) (hy : y0 < 128) :
    get_buffer 128 64 (singleImg 64 128 x0 y0) =
      (List.replicate 1024 255).set (y0 + ((64 - x0 - 1) / 8) * 128)
        (255 - 2 ^ (y0 % 8)) := by
  rw [get_buffer_transposed_eq _ (singleImg_w _ _ _ _) (singleImg_h _ _ _ _)]
  rw [foldl_range_single (rowTransposed 128 64 (singleImg 64 128 x0 y0)) y0 128 _ hy
    (fun c a ha hne => rowTransposed_single_id x0 y0 a c hne)]
  rw [rowTransposed_single_hot x0 y0 hx]
  rw [getD_replicate (show y0 + ((64 - x0 - 1) / 8) * 128 < 1024 by omega)]
  rw [clearBit_255 (Nat.mod_lt y0 (by norm_num))]

/-- C5: in the transposed branch (64×128 raster packed for the 128×64
panel), the single ink pixel `(x0, y0)` clears exactly bit `y0 % 8` — keyed
by the original y — of byte `newx + (newy / 8) * 128` with `newx = y0` and
`newy = 64 - x0 - 1`; in particular this covers the corner pixels (0, 0)
and (63, 127) (see the witness). -/
theorem get_buffer_transposed_pixel :
    ∀ x0 y0 : ℕ, x0 < 64 → y0 < 128 →
      ∀ i b : ℕ, i < 1024 → b < 8 →
        (Nat.testBit ((get_buffer 128 64 (singleImg 64 128 x0 y0)).getD i 0) b = false
          ↔ (i = y0 + ((64 - x0 - 1) / 8) * 128 ∧ b = y0 % 8)) := by
  intro x0 y0 hx hy i b hi hb
  have hidx : y0 + ((64 - x0 - 1) / 8) * 128 < 1024 := by omega
  rw [get_buffer_single_transposed x0 y0 hx hy]
  by_cases hieq : i = y0 + ((64 - x0 - 1) / 8) * 128
  · subst hieq
    rw [getD_set_self _ _ _ _ (by rw [List.length_replicate]; exact hidx)]
    rw [testBit_255_sub (Nat.mod_lt y0 (by norm_num)) hb]
    simp
  · rw [getD_set_ne _ _ _ _ _ hieq, getD_replicate hi, testBit_255_of_lt hb]
    simp [hieq]

/-- Witness for C5 at the corner pixels (0, 0) — byte 0 + (63 / 8) * 128 =
896, bit 0 — and (63, 127) — byte 127 + (0 / 8) * 128 = 127, bit 7. -/
theorem get_buffer_transposed_pixel_witness :
    (Nat.testBit ((get_buffer 128 64 (singleImg 64 128 0 0)).getD 896 0) 0 = false ↔
      (896 = 0 + ((64 - 0 - 1) / 8) * 128 ∧ 0 = 0 % 8)) ∧
    (Nat.testBit ((get_buffer 128 64 (singleImg 64 128 63 127)).getD 127 0) 7 = false ↔
      (127 = 127 + ((64 - 63 - 1) / 8) * 128 ∧ 7 = 127 % 8)) :=
  ⟨get_buffer_transposed_pixel 0 0 (by norm_num) (by norm_num) 896 0
      (by norm_num) (by norm_num),
   get_buffer_transposed_pixel 63 127 (by norm_num) (by norm_num) 127 7
      (by norm_num) (by norm_num)⟩
